import Mathlib

/-!
Verification development for the Morse Micro SDIO host model
(`sdio_utils.py`, `sdio_host.py`, `sdio_phy_drivers.py`).

The Python sources are shallowly embedded below: machine integers become
`Nat` (with explicit masks where the code masks), Python's signed loop
counters become `Int` where they can go negative, fallible code returns
`Except PyErr`, and Python locals that may be left unassigned are tracked
with `Option`.  All definitions are executable and use structural
recursion so that concrete runs can be settled by `decide` / `rfl`.
-/

/-- Exceptions that the embedded Python code can raise. `attributeError`
and `indexError` and `unboundLocal` model the corresponding Python runtime
errors; `sdioDataError` models the repository's `SDIODataError`;
`assertionError` models a failing `assert`. -/
inductive PyErr where
  | attributeError
  | indexError
  | unboundLocal
  | sdioDataError
  | assertionError
  deriving DecidableEq, Repr

/-- Model of `sdio_utils.get_response_type` (sdio_utils.py lines 113-140).
The Python function initialises only `length = 48` and then runs a chain
of independent `if` statements, each assigning the local `rv`; R1b is the
Python float `1.5`, so response kinds are embedded as rationals.  The
inner `Option ℚ` is the value of `rv` (Python `None` = no response
expected); the outer `Option` records whether `rv` was ever assigned:
for a command number in none of the lists the Python `return (rv, length)`
raises `UnboundLocalError`, modelled as `none`. -/
def get_response_type (cmd_num : ℕ) : Option (Option ℚ × ℕ) :=
  let length := 48
  let rv : Option (Option ℚ) := none
  let rv := if cmd_num ∈ [0, 4, 15] then some none else rv
  let rv := if cmd_num ∈ [11, 13, 16, 17, 18, 19, 23, 55, 56] then some (some 1) else rv
  let rv := if cmd_num ∈ [7, 12, 20] then some (some (3 / 2)) else rv
  let lr := if cmd_num ∈ [2, 9, 10] then (some (some 2), 136) else (rv, length)
  let rv := lr.1
  let length := lr.2
  let rv := if cmd_num ∈ [4, 5] then some (some 4) else rv
  let rv := if cmd_num ∈ [52, 53] then some (some 5) else rv
  let rv := if cmd_num ∈ [3] then some (some 6) else rv
  let rv := if cmd_num ∈ [8] then some (some 7) else rv
  match rv with
  | none => none
  | some kind => some (kind, length)

/-- Union of every command-number list appearing in `get_response_type`. -/
def get_response_type_listed : List ℕ :=
  [0, 4, 15] ++ [11, 13, 16, 17, 18, 19, 23, 55, 56] ++ [7, 12, 20] ++
    [2, 9, 10] ++ [4, 5] ++ [52, 53] ++ [3] ++ [8]

/-- C2: the claim says `get_response_type` returns `None` (no response) for
all of 0, 4 and 15.  Evaluating the code: this holds for 0 and 15, but for
command 4 the later `if cmd_num in [4,5]` branch overwrites `rv = None`
with `rv = 4`, so CMD4 is reported as expecting an R4 response of 48 bits,
contradicting the function's own comment (`# No response expected`). -/
theorem C2_get_response_type_cmd4_overwritten :
    get_response_type 0 = some (none, 48) ∧
    get_response_type 15 = some (none, 48) ∧
    get_response_type 4 = some (some 4, 48) ∧
    get_response_type 4 ≠ some (none, 48) := by
  refine ⟨by decide, by decide, by decide, by decide⟩

/-- C10: `get_response_type` is defined only on the command numbers listed
in its tables; on any other command number the Python local `rv` is never
assigned and the final `return` raises `UnboundLocalError` (modelled as
`none`) rather than returning a default `(kind, length)` pair. -/
theorem C10_get_response_type_unlisted_undefined (cmd_num : ℕ)
    (h : cmd_num ∉ get_response_type_listed) :
    get_response_type cmd_num = none := by
  simp only [get_response_type_listed, List.append_assoc, List.mem_append,
    not_or] at h
  obtain ⟨hA, hB, hC, hD, hE, hF, hG, hH⟩ := h
  simp only [List.mem_singleton] at hG hH
  simp [get_response_type, hA, hB, hC, hD, hE, hF, hG, hH]

/-- Witness for C10 at the concrete unlisted command number 1. -/
theorem C10_get_response_type_unlisted_undefined_witness :
    (1 : ℕ) ∉ get_response_type_listed ∧ get_response_type 1 = none :=
  ⟨by decide, C10_get_response_type_unlisted_undefined 1 (by decide)⟩

/-- One round of the inner loop of `sdio_utils.crc7_gen` (sdio_utils.py
lines 176-180): `regval <<= 1; if (byte_val ^ regval) & 0x80: regval ^= 9;
byte_val = (byte_val << 1) & 0xFF`.  State is `(byte_val, regval)`. -/
def crc7_bit (p : ℕ × ℕ) : ℕ × ℕ :=
  let byteval := p.1
  let regval := p.2 <<< 1
  let regval := if (byteval ^^^ regval) &&& 0x80 ≠ 0 then regval ^^^ 9 else regval
  ((byteval <<< 1) &&& 0xFF, regval)

/-- Eight rounds of `crc7_bit` (the `for bit_index in range(8)` loop). -/
def crc7_bits8 : ℕ → ℕ × ℕ → ℕ × ℕ
  | 0, p => p
  | k + 1, p => crc7_bits8 k (crc7_bit p)

/-- Outer loop of `crc7_gen`: `for i in range(bit_count, 0, -8)` processes
the byte `(number >> (i-8)) & 0xFF` and then masks `regval &= 0x7F`.  The
fuel argument is the iteration count `⌈bit_count/8⌉` of the Python range;
`i` is the Python loop variable.  (`bit_count` is a multiple of 8 at every
call site; the sole caller uses the default 40.) -/
def crc7_loop (number : ℕ) : ℕ → ℕ → ℕ → ℕ
  | 0, _i, regval => regval
  | k + 1, i, regval =>
    let byteval := (number >>> (i - 8)) &&& 0xFF
    let regval := (crc7_bits8 8 (byteval, regval)).2 &&& 0x7F
    crc7_loop number k (i - 8) regval

/-- Model of `sdio_utils.crc7_gen(number, bit_count)` (lines 164-184). -/
def crc7_gen (number : ℕ) (bit_count : ℕ) : ℕ :=
  crc7_loop number ((bit_count + 7) / 8) bit_count 0

theorem crc7_loop_lt_128 (number : ℕ) :
    ∀ k i regval, regval < 128 → crc7_loop number k i regval < 128 := by
  intro k
  induction k with
  | zero => intro i regval h; simpa [crc7_loop] using h
  | succ k ih =>
    intro i regval _
    simp only [crc7_loop]
    exact ih _ _ (Nat.lt_succ_of_le (Nat.and_le_right))

theorem crc7_gen_lt_128 (number bit_count : ℕ) : crc7_gen number bit_count < 128 :=
  crc7_loop_lt_128 number _ _ 0 (by norm_num)

set_option maxRecDepth 4000 in
/-- Sanity vector from the SD spec: the CMD0 header `0x4000000000`
(40 bits, only the direction bit set) has CRC7 `0x4A`. -/
theorem crc7_gen_cmd0_vector : crc7_gen 0x4000000000 40 = 0x4A := by decide

/-- Model of `sdio_utils.init_cmd(cmd_num)` (sdio_utils.py lines 92-111)
as the integer value of the 48-bit `BinaryValue`: bit 47 (start) = 0,
bit 46 (direction) = 1, bits 45:40 = the low six bits of `cmd_num`,
bit 0 (stop) = 1, all other bits 0. -/
def init_cmd (cmd_num : ℕ) : ℕ :=
  2 ^ 46 + (cmd_num % 64) * 2 ^ 40 + 1

/-- The command builders in `sdio_host.py` (`cmd_go_idle`,
`cmd_send_relative_addr`, `cmd_send_if_cond`, `cmd_send_op_cond`,
`cmd_select_card`, `cmd_io_rw_direct`, `cmd_io_rw_extended`) only ever
assign slices inside bits 39:8 of the frame returned by `init_cmd`
(rw, fn, raw/block/op, address, count/data, VHS/OCR bits), i.e. they fill
the 32-bit argument field, which `init_cmd` left zero.  `fill_arg`
collapses those writes: it installs an arbitrary 32-bit argument. -/
def fill_arg (cmd : ℕ) (arg : ℕ) : ℕ :=
  cmd + (arg % 2 ^ 32) * 2 ^ 8

/-- Model of the CRC-filling step of `send_cmd` (sdio_phy_drivers.py lines
88-89): `crc7 = crc7_gen(number=cmd[47:8].integer); cmd[7:1] = crc7`.
The slice assignment replaces bits 7:1 (zero at this point) and keeps
bit 0, i.e. adds `crc7 * 2`. -/
def send_cmd_fill (cmd : ℕ) : ℕ :=
  (cmd / 2 ^ 8) * 2 ^ 8 + crc7_gen (cmd >>> 8) 40 * 2 + cmd % 2

/-- C6: every command frame transmitted by the PHY — built by `init_cmd`,
argument-filled by a command method, CRC-filled by `send_cmd` — has
start bit 47 = 0, direction bit 46 = 1, stop bit 0 = 1, and bits 7:1
equal to the CRC7 of bits 46:8 of the frame. -/
theorem C6_command_frame_invariant (cmd_num arg : ℕ) :
    (send_cmd_fill (fill_arg (init_cmd cmd_num) arg)).testBit 47 = false ∧
    (send_cmd_fill (fill_arg (init_cmd cmd_num) arg)).testBit 46 = true ∧
    (send_cmd_fill (fill_arg (init_cmd cmd_num) arg)).testBit 0 = true ∧
    (send_cmd_fill (fill_arg (init_cmd cmd_num) arg)) >>> 1 % 2 ^ 7 =
      crc7_gen ((send_cmd_fill (fill_arg (init_cmd cmd_num) arg)) >>> 8 % 2 ^ 39) 40 := by
  set c := cmd_num % 64 with hcdef
  set a := arg % 2 ^ 32 with hadef
  have hc : c < 64 := Nat.mod_lt _ (by norm_num)
  have ha : a < 2 ^ 32 := Nat.mod_lt _ (by norm_num)
  have hpre : fill_arg (init_cmd cmd_num) arg = 2 ^ 46 + c * 2 ^ 40 + 1 + a * 2 ^ 8 := rfl
  have hdiv : (2 ^ 46 + c * 2 ^ 40 + 1 + a * 2 ^ 8) / 2 ^ 8 = 2 ^ 38 + c * 2 ^ 32 + a := by
    omega
  have hmod : (2 ^ 46 + c * 2 ^ 40 + 1 + a * 2 ^ 8) % 2 = 1 := by
    omega
  have hshift : (2 ^ 46 + c * 2 ^ 40 + 1 + a * 2 ^ 8) >>> 8 = 2 ^ 38 + c * 2 ^ 32 + a := by
    rw [Nat.shiftRight_eq_div_pow]
    exact hdiv
  set r := crc7_gen (2 ^ 38 + c * 2 ^ 32 + a) 40 with hrdef
  have hr : r < 128 := crc7_gen_lt_128 _ _
  have hf : send_cmd_fill (fill_arg (init_cmd cmd_num) arg) =
      (2 ^ 38 + c * 2 ^ 32 + a) * 2 ^ 8 + r * 2 + 1 := by
    rw [send_cmd_fill, hpre, hdiv, hmod, hshift]
  set X := 2 ^ 38 + c * 2 ^ 32 + a with hXdef
  have hX : X < 2 ^ 39 := by rw [hXdef]; omega
  have hXlo : 2 ^ 38 ≤ X := by rw [hXdef]; omega
  refine ⟨?_, ?_, ?_, ?_⟩
  · rw [hf, Nat.testBit_to_div_mod]
    simp only [decide_eq_false_iff_not]
    omega
  · rw [hf, Nat.testBit_to_div_mod]
    simp only [decide_eq_true_eq]
    omega
  · rw [hf, Nat.testBit_to_div_mod]
    simp only [decide_eq_true_eq, pow_zero, Nat.div_one]
    omega
  · rw [hf]
    have h1 : (X * 2 ^ 8 + r * 2 + 1) >>> 1 % 2 ^ 7 = r := by
      rw [Nat.shiftRight_eq_div_pow]
      omega
    have h2 : (X * 2 ^ 8 + r * 2 + 1) >>> 8 % 2 ^ 39 = X := by
      rw [Nat.shiftRight_eq_div_pow]
      omega
    rw [h1, h2, hrdef]

/-- Attribute lookup of `self.fn0_max_blocksize` on an `SDIOHost` object.
`SDIOHost.init_state` (sdio_host.py lines 75-92) — the only place host
state is initialised, also called from `__init__` and `soft_reset` —
assigns exactly `rca`, `smb`, `sdc`, `srw`, `sbs`, `s4mi`, `lsc`, `b4ls`,
`fn_cis_addrs`, `fn_max_blocksizes`, `fn_count` and `cis_data`
(`__init__` additionally assigns `log`, `spi_mode`, `phy`, `clock`), and
no method of the class ever assigns an attribute named
`fn0_max_blocksize`; the Python attribute lookup therefore always fails
with `AttributeError`, modelled as `none`. -/
def host_fn0_max_blocksize_attr : Option ℕ := none

/-- Model of the `fn == 0` branch of `SDIOHost.set_block_size`
(sdio_host.py lines 757-761).  Python evaluates
`blocksize <= self.fn0_max_blocksize` first; only if the attribute lookup
succeeded would the assert be checked and the two CCCR writes
(address 16 ← `blocksize & 0xff`, address 17 ← `(blocksize >> 8) & 0xff`)
be issued.  Returns the list of `(address, data)` register writes. -/
def set_block_size_fn0 (blocksize : ℕ) : Except PyErr (List (ℕ × ℕ)) :=
  match host_fn0_max_blocksize_attr with
  | none => .error .attributeError
  | some maxbs =>
    if blocksize ≤ maxbs then
      .ok [(16, blocksize &&& 0xff), (17, (blocksize >>> 8) &&& 0xff)]
    else
      .error .assertionError

/-- C3: the claim says `set_block_size(fn=0, blocksize)` completes by
writing the block size to CCCR 16/17 whenever `blocksize` is within the
discovered maximum.  In fact every call with `fn = 0` raises
`AttributeError` before any assertion or register write, because the
assert reads `self.fn0_max_blocksize`, an attribute that `init_state`
never creates (the discovered maxima live in the list
`fn_max_blocksizes`). -/
theorem C3_set_block_size_fn0_attribute_error (blocksize : ℕ) :
    set_block_size_fn0 blocksize = .error .attributeError := rfl

/-- Loop body of `SDIOHost.parse_cis_tuple_table` (sdio_host.py lines
631-665), iterating over the bytes of the CIS window.  State mirrors the
Python locals: `link : ℤ` (initially the sentinel −1; Python decrements it
below zero), `bot` (`byte_of_tuple`), `rts` (`return_tuples`) and `cur`
(`current_tuple`).  Raises `SDIODataError` on a zero link byte or a tuple
longer than 100 bytes; a tuple-code byte `0xff` at position 0 ends the
walk, returning the completed tuples. -/
def parse_cis_loop : List ℕ → ℤ → ℕ → List (List ℕ) → List ℕ →
    Except PyErr (List (List ℕ))
  | [], _link, _bot, rts, _cur => .ok rts
  | byte :: rest, link, bot, rts, cur =>
    let s :=
      if link = 0 ∧ bot > 0 then (link - 1, 0, rts ++ [cur], ([] : List ℕ))
      else (link, bot, rts, cur)
    let link := s.1
    let bot := s.2.1
    let rts := s.2.2.1
    let cur := s.2.2.2 ++ [byte]
    if bot = 0 ∧ byte = 0xff then .ok rts
    else if bot = 1 ∧ byte = 0 then .error .sdioDataError
    else
      let link := if bot = 1 then (byte : ℤ) + 1 else link
      let bot := bot + 1
      let link := if link ≠ 0 then link - 1 else link
      if bot > 100 then .error .sdioDataError
      else parse_cis_loop rest link bot rts cur

/-- Model of `SDIOHost.parse_cis_tuple_table(addr)` (sdio_host.py lines
626-665): walk the cached `cis_data` starting at offset `addr & 0xff`. -/
def parse_cis_tuple_table (cis_data : List ℕ) (addr : ℕ) :
    Except PyErr (List (List ℕ)) :=
  parse_cis_loop (cis_data.drop (addr &&& 0xff)) (-1) 0 [] []


instance {ε α : Type} [DecidableEq ε] [DecidableEq α] : DecidableEq (Except ε α) := fun x y =>
  match x, y with
  | .ok a, .ok b =>
    if h : a = b then isTrue (by rw [h]) else isFalse (fun hh => by cases hh; exact h rfl)
  | .error a, .error b =>
    if h : a = b then isTrue (by rw [h]) else isFalse (fun hh => by cases hh; exact h rfl)
  | .ok _, .error _ => isFalse (fun hh => by cases hh)
  | .error _, .ok _ => isFalse (fun hh => by cases hh)

/-- Model of the per-function max-block-size extraction in `sdio_init`
(sdio_host.py lines 549-577): scan the parsed tuples for the first one
whose tuple code (byte 0) is `0x22` (FUNCE) and read the 16-bit
little-endian value at tuple bytes `lo`/`hi` — `(tuple[hi] << 8) |
tuple[lo]` with `lo,hi = 3,4` for function 0 and `14,15` for functions
1-7.  A missing FUNCE tuple raises `SDIODataError`; a FUNCE tuple shorter
than `hi+1` bytes makes the Python subscripts raise `IndexError`.  No
positivity check is performed on the extracted value. -/
def cis_max_blocksize (cis_data : List ℕ) (addr lo hi : ℕ) : Except PyErr ℕ :=
  match parse_cis_tuple_table cis_data addr with
  | .error e => .error e
  | .ok tuples =>
    match tuples.find? (fun t => decide (t.head? = some 0x22)) with
    | none => .error .sdioDataError
    | some t =>
      match t.get? hi, t.get? lo with
      | some bhi, some blo => .ok ((bhi <<< 8) ||| blo)
      | _, _ => .error .indexError

/-- Function-0 extraction: `self.fn_max_blocksizes[0] = (tuple[4] << 8) | tuple[3]`. -/
def fn0_max_blocksize_of_cis (cis_data : List ℕ) (addr : ℕ) : Except PyErr ℕ :=
  cis_max_blocksize cis_data addr 3 4

/-- Function 1-7 extraction: `self.fn_max_blocksizes[fn] = (tuple[15] << 8) | tuple[14]`. -/
def fn_max_blocksize_of_cis (cis_data : List ℕ) (addr : ℕ) : Except PyErr ℕ :=
  cis_max_blocksize cis_data addr 14 15

/-- The CIS buffer of the spec's CIS-parsing scenario (claim C8). -/
def c8_cis_buffer : List ℕ :=
  [0x20, 0x04, 0xAA, 0xBB, 0xCC, 0xDD, 0x22, 0x02, 0x00, 0x02, 0xFF]

/-- C8 counterexample: on the scenario buffer the parser does return the
two claimed tuples, but the function-0 max-blocksize extraction applied to
the FUNCE tuple `[0x22, 0x02, 0x00, 0x02]` does not yield 512: the tuple
has only four bytes (indices 0-3) and the extraction reads `tuple[4]`,
which raises `IndexError`. -/
theorem C8_cis_parse_counterexample :
    fn0_max_blocksize_of_cis c8_cis_buffer 0 ≠ .ok 512 := by decide

/-- C8 amended: the parser part of the claim holds — the scenario buffer
parses to exactly `[0x20, 0x04, 0xAA, 0xBB, 0xCC, 0xDD]` and
`[0x22, 0x02, 0x00, 0x02]` — but the function-0 extraction on that FUNCE
tuple fails with `IndexError` (it needs tuple byte 4) instead of
yielding `0x0200 = 512`. -/
theorem C8_cis_parse_amended :
    parse_cis_tuple_table c8_cis_buffer 0 =
      .ok [[0x20, 0x04, 0xAA, 0xBB, 0xCC, 0xDD], [0x22, 0x02, 0x00, 0x02]] ∧
    fn0_max_blocksize_of_cis c8_cis_buffer 0 = .error .indexError := by
  exact ⟨by decide, by decide⟩

/-- C5 counterexample: `sdio_init` completes without raising on a device
whose FUNCE tuple advertises a max block size of 0 — the extraction
succeeds with value 0 and no strict-positivity check exists — so
`fn_max_blocksizes[0]` need not be strictly positive. -/
theorem C5_blocksize_zero_counterexample :
    fn0_max_blocksize_of_cis [0x22, 0x04, 0x00, 0x00, 0x00, 0x00, 0xFF] 0 = .ok 0 ∧
    ¬ 0 < (0 : ℕ) := by
  exact ⟨by decide, by decide⟩

/-- C5 amended: whatever `sdio_init` stores does come from a CIS tuple
whose first byte is `0x22`: whenever the extraction phase succeeds with
value `v`, the parsed tuple table contains a tuple `t` with tuple code
`0x22` and `v = (t[hi] <<< 8) ||| t[lo]` — but `v` may be any 16-bit
value, including 0. -/
theorem C5_blocksize_from_funce_tuple (cis_data : List ℕ) (addr lo hi v : ℕ)
    (h : cis_max_blocksize cis_data addr lo hi = .ok v) :
    ∃ tuples, parse_cis_tuple_table cis_data addr = .ok tuples ∧
      ∃ t ∈ tuples, t.head? = some 0x22 ∧
        ∃ blo bhi, t.get? lo = some blo ∧ t.get? hi = some bhi ∧
          v = (bhi <<< 8) ||| blo := by
  unfold cis_max_blocksize at h
  split at h
  · simp at h
  · rename_i tuples hp
    refine ⟨tuples, hp, ?_⟩
    split at h
    · simp at h
    · rename_i t hf
      refine ⟨t, List.mem_of_find?_eq_some hf, ?_⟩
      have hhead := List.find?_some hf
      simp only [decide_eq_true_eq] at hhead
      refine ⟨hhead, ?_⟩
      split at h
      · rename_i bhi blo hhi hlo
        simp only [Except.ok.injEq] at h
        exact ⟨blo, bhi, hlo, hhi, h.symm⟩
      all_goals simp at h

/-- Witness for the C5 amended theorem on a concrete CIS whose FUNCE
tuple encodes 512. -/
theorem C5_blocksize_from_funce_tuple_witness :
    ∃ tuples,
      parse_cis_tuple_table [0x22, 0x04, 0x00, 0x00, 0x02, 0x00, 0xFF] 0 = .ok tuples ∧
      ∃ t ∈ tuples, t.head? = some 0x22 ∧
        ∃ blo bhi, t.get? 3 = some blo ∧ t.get? 4 = some bhi ∧
          512 = (bhi <<< 8) ||| blo :=
  C5_blocksize_from_funce_tuple [0x22, 0x04, 0x00, 0x00, 0x02, 0x00, 0xFF] 0 3 4 512
    (by decide)

/-- Per-bit update of `sdio_utils.crc16_gen` (sdio_utils.py lines 274-276):
`val = ((byte >> bit) ^ (crc >> 15)) & 0x1; crc = crc ^ ((val << 4) |
(val << 11)); crc = (crc << 1) | val`.  The Python `crc` is only masked to
16 bits at the very end, so the accumulator here is an unbounded `Nat`. -/
def crc16_step (crc byteval bit : ℕ) : ℕ :=
  let val := ((byteval >>> bit) ^^^ (crc >>> 15)) &&& 1
  ((crc ^^^ ((val <<< 4) ||| (val <<< 11))) <<< 1) ||| val

/-- Inner loop of `crc16_gen` (`for bit in range(7,-1,-1)`), with the
`num_bits -= 1; if num_bits == 0: break` bookkeeping.  The first argument
is the number of bit positions still to visit (8 visits bits 7..0); the
counter `nb` is an `Int` because Python lets it go negative (when the
caller passes `num_bits = 0` it is decremented past zero and never breaks
again).  Returns the updated `(crc, num_bits)`. -/
def crc16_inner (byteval : ℕ) : ℕ → ℕ → ℤ → ℕ × ℤ
  | 0, crc, nb => (crc, nb)
  | k + 1, crc, nb =>
    let crc := crc16_step crc byteval k
    let nb := nb - 1
    if nb = 0 then (crc, 0) else crc16_inner byteval k crc nb

/-- Outer loop of `crc16_gen` (`for byte in data`), with the trailing
`if num_bits == 0: break`. -/
def crc16_outer : List ℕ → ℕ → ℤ → ℕ
  | [], crc, _nb => crc
  | byteval :: rest, crc, nb =>
    let r := crc16_inner byteval 8 crc nb
    if r.2 = 0 then r.1 else crc16_outer rest r.1 r.2

/-- Model of `sdio_utils.crc16_gen(data, num_bits)` (lines 263-284): run
the double loop from `crc = 0` and mask the result with `0xffff`.  (The
Python `assert num_bits/8 <= len(data)` is a true-division comparison,
i.e. `num_bits ≤ 8·len(data)`; callers in this development carry that as
a hypothesis where it matters.) -/
def crc16_gen (data : List ℕ) (num_bits : ℕ) : ℕ :=
  crc16_outer data 0 (num_bits : ℤ) &&& 0xffff

/-- Reference per-bit CCITT update, written from the spec's own words:
`v = (byte_bit XOR crc_bit15) & 1; crc = ((crc XOR ((v<<4)|(v<<11))) << 1)
| v; crc &= 0xFFFF` — the same shift-register recurrence as the
polynomial 0x1021, but with the accumulator masked to 16 bits on every
round. -/
def crc16_spec_step (crc bit : ℕ) : ℕ :=
  let v := (bit ^^^ (crc >>> 15)) &&& 1
  (((crc ^^^ ((v <<< 4) ||| (v <<< 11))) <<< 1) ||| v) % 2 ^ 16

/-- The bits of a byte, most significant first (spec: the reference
implementation consumes the bytes MSB-first). -/
def byte_bits_msb (b : ℕ) : List ℕ :=
  [7, 6, 5, 4, 3, 2, 1, 0].map (fun i => (b >>> i) &&& 1)

/-- Reference CRC16, written from the spec's words: fold the CCITT per-bit
update over the MSB-first bit stream of `data`, stopping as soon as
exactly `num_bits` bits have been consumed. -/
def crc16_reference (data : List ℕ) (num_bits : ℕ) : ℕ :=
  (((data.map byte_bits_msb).flatten).take num_bits).foldl crc16_spec_step 0

/-- C7 counterexample: at `num_bits = 0` on a nonempty buffer the claim
fails.  The reference consumes zero bits and returns 0, but the code's
counter is decremented from 0 to −1 on the first bit and never equals 0
again, so `crc16_gen` consumes all eight bits of `0x80` and returns the
CRC of the full byte. -/
theorem C7_crc16_num_bits_zero_counterexample :
    crc16_gen [0x80] 0 ≠ crc16_reference [0x80] 0 := by decide

/-- Bit positions visited by one pass of the inner loop of `crc16_gen`,
paired with the byte they index into: `(byte, k-1), …, (byte, 0)`. -/
def bit_idx_pairs (byteval k : ℕ) : List (ℕ × ℕ) :=
  ((List.range k).reverse).map (fun i => (byteval, i))

/-- `crc16_step` as a fold step over `(byte, bit)` pairs. -/
def crc16_pair_step (crc : ℕ) (p : ℕ × ℕ) : ℕ :=
  crc16_step crc p.1 p.2

/-- The `(byte, bit)` pairs visited by the full double loop of
`crc16_gen`, in visiting order. -/
def crc16_stream (data : List ℕ) : List (ℕ × ℕ) :=
  (data.map (fun b => bit_idx_pairs b 8)).flatten

theorem bit_idx_pairs_succ (b k : ℕ) :
    bit_idx_pairs b (k + 1) = (b, k) :: bit_idx_pairs b k := by
  simp [bit_idx_pairs, List.range_succ]

theorem bit_idx_pairs_length (b k : ℕ) : (bit_idx_pairs b k).length = k := by
  simp [bit_idx_pairs]

theorem crc16_stream_cons (b : ℕ) (rest : List ℕ) :
    crc16_stream (b :: rest) = bit_idx_pairs b 8 ++ crc16_stream rest := by
  simp [crc16_stream]

theorem nat_lt_two_eq_of_testBit {m n : ℕ} (hm : m ≤ 1) (hn : n ≤ 1)
    (h : m.testBit 0 = n.testBit 0) : m = n := by
  interval_cases m <;> interval_cases n <;> simp_all [Nat.testBit]

/-- The unbounded accumulator of the source and the 16-bit-masked
accumulator of the reference stay congruent modulo `2^16`: one source
step followed by the mask equals one reference step on the masked state,
fed the extracted bit `(byte >> bit) & 1`. -/
theorem crc16_step_mod (crc byteval bit : ℕ) :
    crc16_step crc byteval bit % 2 ^ 16 =
      crc16_spec_step (crc % 2 ^ 16) ((byteval >>> bit) &&& 1) := by
  simp only [crc16_step, crc16_spec_step]
  have ht1 : Nat.testBit 1 0 = true := by decide
  have h1516 : decide (15 < 16) = true := by decide
  have hv : ((byteval >>> bit) ^^^ (crc >>> 15)) &&& 1 =
      (((byteval >>> bit) &&& 1) ^^^ ((crc % 2 ^ 16) >>> 15)) &&& 1 := by
    apply nat_lt_two_eq_of_testBit Nat.and_le_right Nat.and_le_right
    simp only [Nat.testBit_and, Nat.testBit_xor, Nat.testBit_shiftRight,
      Nat.testBit_mod_two_pow, Nat.add_zero, ht1, h1516, Bool.and_true,
      Bool.true_and]
  rw [← hv]
  generalize ((byteval >>> bit) ^^^ (crc >>> 15)) &&& 1 = v
  apply Nat.eq_of_testBit_eq
  intro j
  simp only [Nat.testBit_mod_two_pow, Nat.testBit_or, Nat.testBit_shiftLeft,
    Nat.testBit_xor]
  by_cases h16 : j < 16
  · by_cases h1 : 1 ≤ j
    · have hj : j - 1 < 16 := lt_of_le_of_lt (Nat.sub_le j 1) h16
      simp only [decide_eq_true h16, decide_eq_true h1, decide_eq_true hj,
        Bool.true_and, ge_iff_le]
    · have h0 : j = 0 := by omega
      subst h0
      simp
  · simp only [decide_eq_false h16, Bool.false_and]

theorem crc16_foldl_mod (l : List (ℕ × ℕ)) :
    ∀ crc : ℕ, (l.foldl crc16_pair_step crc) % 2 ^ 16 =
      (l.map (fun p => (p.1 >>> p.2) &&& 1)).foldl crc16_spec_step (crc % 2 ^ 16) := by
  induction l with
  | nil => intro crc; simp
  | cons p rest ih =>
    intro crc
    simp only [List.foldl_cons, List.map_cons]
    rw [ih]
    congr 1
    exact (crc16_step_mod crc p.1 p.2)

/-- When more bits remain wanted than this byte provides, the inner loop
of `crc16_gen` never breaks: it folds over all `k` bit positions and
returns the counter decreased by `k`. -/
theorem crc16_inner_no_break (b : ℕ) :
    ∀ (k : ℕ) (crc : ℕ) (nb : ℤ), (k : ℤ) < nb →
      crc16_inner b k crc nb =
        ((bit_idx_pairs b k).foldl crc16_pair_step crc, nb - k) := by
  intro k
  induction k with
  | zero =>
    intro crc nb _
    simp [crc16_inner, bit_idx_pairs]
  | succ k ih =>
    intro crc nb h
    have hnb : ¬ (nb - 1 = 0) := by push_cast at h; omega
    simp only [crc16_inner, hnb, if_false]
    rw [ih _ (nb - 1) (by push_cast at h ⊢; omega)]
    rw [bit_idx_pairs_succ]
    simp only [List.foldl_cons, crc16_pair_step, Prod.mk.injEq, true_and]
    push_cast
    omega

/-- When between 1 and `k` bits are still wanted, the inner loop breaks
exactly after consuming that many bits, returning counter 0. -/
theorem crc16_inner_break (b : ℕ) :
    ∀ (k : ℕ) (crc : ℕ) (nbn : ℕ), 1 ≤ nbn → nbn ≤ k →
      crc16_inner b k crc (nbn : ℤ) =
        (((bit_idx_pairs b k).take nbn).foldl crc16_pair_step crc, 0) := by
  intro k
  induction k with
  | zero => intro crc nbn h1 h2; omega
  | succ k ih =>
    intro crc nbn h1 h2
    rcases Nat.eq_or_lt_of_le h1 with h | h
    · have : (nbn : ℤ) - 1 = 0 := by omega
      simp only [crc16_inner, this, if_true]
      rw [bit_idx_pairs_succ]
      simp [crc16_pair_step, ← h]
    · have hnb : ¬ ((nbn : ℤ) - 1 = 0) := by omega
      simp only [crc16_inner, hnb, if_false]
      have hcast : (nbn : ℤ) - 1 = ((nbn - 1 : ℕ) : ℤ) := by omega
      rw [hcast, ih _ (nbn - 1) (by omega) (by omega)]
      rw [bit_idx_pairs_succ]
      have : nbn = (nbn - 1) + 1 := by omega
      rw [this, List.take_succ_cons]
      simp [crc16_pair_step]

/-- The outer loop of `crc16_gen`, for a wanted bit count between 1 and
the total number of bits available, folds exactly over the first
`num_bits` `(byte, bit)` pairs of the stream. -/
theorem crc16_outer_foldl :
    ∀ (data : List ℕ) (crc : ℕ) (nbn : ℕ), 1 ≤ nbn → nbn ≤ 8 * data.length →
      crc16_outer data crc (nbn : ℤ) =
        ((crc16_stream data).take nbn).foldl crc16_pair_step crc := by
  intro data
  induction data with
  | nil => intro crc nbn h1 h2; simp at h2; omega
  | cons b rest ih =>
    intro crc nbn h1 h2
    simp only [crc16_outer]
    by_cases hle : nbn ≤ 8
    · rw [crc16_inner_break b 8 crc nbn h1 hle]
      simp only [if_true]
      rw [crc16_stream_cons,
        List.take_append_of_le_length (by rw [bit_idx_pairs_length]; exact hle)]
    · push_neg at hle
      rw [crc16_inner_no_break b 8 crc (nbn : ℤ) (by exact_mod_cast hle)]
      have hcast8 : ((8 : ℕ) : ℤ) = (8 : ℤ) := by norm_cast
      rw [hcast8]
      have hne : ¬ ((nbn : ℤ) - 8 = 0) := by omega
      simp only [hne, if_false]
      have hcast : (nbn : ℤ) - 8 = ((nbn - 8 : ℕ) : ℤ) := by omega
      rw [hcast, ih _ (nbn - 8) (by omega) (by simp at h2 ⊢; omega)]
      have htake : List.take nbn (bit_idx_pairs b 8) = bit_idx_pairs b 8 :=
        List.take_of_length_le (by rw [bit_idx_pairs_length]; omega)
      rw [crc16_stream_cons, List.take_append_eq_append_take,
        bit_idx_pairs_length, htake, List.foldl_append]

theorem crc16_stream_map_bits (data : List ℕ) :
    (crc16_stream data).map (fun p => (p.1 >>> p.2) &&& 1) =
      (data.map byte_bits_msb).flatten := by
  induction data with
  | nil => rfl
  | cons b rest ih =>
    rw [crc16_stream_cons, List.map_append, ih]
    simp only [List.map_cons, List.flatten_cons]
    congr 1

theorem nat_and_ffff_eq_mod (x : ℕ) : x &&& 0xffff = x % 2 ^ 16 := by
  apply Nat.eq_of_testBit_eq
  intro j
  rw [show (0xffff : ℕ) = 2 ^ 16 - 1 from rfl]
  simp only [Nat.testBit_and, Nat.testBit_mod_two_pow, Nat.testBit_two_pow_sub_one]
  rw [Bool.and_comm]

/-- C7 amended: for every byte list and every positive
`num_bits ≤ 8·len(data)`, `crc16_gen` agrees with the reference CCITT
implementation that consumes the bytes MSB-first and stops after exactly
`num_bits` bits.  (Positivity is needed: at `num_bits = 0` the code's
counter is decremented past zero and never triggers the break, see the
counterexample.) -/
theorem C7_crc16_gen_matches_reference (data : List ℕ) (num_bits : ℕ)
    (h1 : 1 ≤ num_bits) (h2 : num_bits ≤ 8 * data.length) :
    crc16_gen data num_bits = crc16_reference data num_bits := by
  unfold crc16_gen crc16_reference
  rw [nat_and_ffff_eq_mod, crc16_outer_foldl data 0 num_bits h1 h2,
    crc16_foldl_mod, List.map_take, crc16_stream_map_bits, Nat.zero_mod]

/-- Witness for the C7 amended theorem: the 16-bit CRC of the two bytes
`[0x01, 0x02]` computed by the code equals the reference value. -/
theorem C7_crc16_gen_matches_reference_witness :
    1 ≤ 16 ∧ 16 ≤ 8 * [0x01, 0x02].length ∧
      crc16_gen [0x01, 0x02] 16 = crc16_reference [0x01, 0x02] 16 :=
  ⟨by decide, by decide,
    C7_crc16_gen_matches_reference [0x01, 0x02] 16 (by decide) (by decide)⟩

/-- Status returned by the modelled `data_bus_read`: the Python function
returns `(data, "okay")` or `(data, "aborted")`, or raises
`SDIODataError` (modelled as `dataError`). -/
inductive DbrStatus where
  | okay
  | aborted
  | dataError
  deriving DecidableEq, Repr

/-- Result value of `cmd_io_rw_extended` on the read path: the Python
`raise ReturnValue(data)` returns a flat byte list (`bytes`), while the
normal block-mode return `raise ReturnValue(blockdata)` returns a list of
blocks (`blocks`). -/
inductive Cmd53Ret where
  | bytes (data : List ℕ)
  | blocks (blockdata : List (List ℕ))
  deriving DecidableEq, Repr

/-- Byte loop of `CocotbSDIOHostDriver.data_bus_read`
(sdio_phy_drivers.py lines 166-192): `for byte in range(0, count)` sample
one byte off the bus, append it, and — `if could_abort and
self.data_read_aborted` — return the bytes so far with status aborted.
The environment is abstracted as `dev i` (the byte the device drives for
index `i`) and `obs t` (the value of the sticky `data_read_aborted` flag,
set asynchronously by another fibre, when it is polled at the `t`-th
polling point of this call sequence).  Arguments: fuel = bytes still to
read, `i` = next byte index, `t` = next poll index, `acc` = bytes so far.
Returns `(data, aborted?, next poll index)`. -/
def dbr_byte_loop (could_abort : Bool) (obs : ℕ → Bool) (dev : ℕ → ℕ) :
    ℕ → ℕ → ℕ → List ℕ → List ℕ × Bool × ℕ
  | 0, _i, t, acc => (acc, false, t)
  | k + 1, i, t, acc =>
    let acc := acc ++ [dev i]
    if could_abort && obs t then (acc, true, t + 1)
    else dbr_byte_loop could_abort obs dev k (i + 1) (t + 1) acc

/-- CRC phase of `data_bus_read` (lines 196-210): 16 bit samples, each
followed by `if could_abort and self.data_read_aborted` — the sampled CRC
bits themselves are summarised by the `crc_wire` argument of
`data_bus_read`.  Returns `(aborted?, next poll index)`. -/
def dbr_crc_poll (could_abort : Bool) (obs : ℕ → Bool) : ℕ → ℕ → Bool × ℕ
  | 0, t => (false, t)
  | k + 1, t =>
    if could_abort && obs t then (true, t + 1)
    else dbr_crc_poll could_abort obs k (t + 1)

/-- Model of `CocotbSDIOHostDriver.data_bus_read(count, could_abort)`
(sdio_phy_drivers.py lines 137-242) in 1-bit mode with a responsive
device (the start bit arrives before any timeout; the timeout branch is
not exercised by the claims settled here).  After the byte loop and the
16 CRC polls, the received CRC `crc_wire` is compared against
`crc16_gen(data, count*8)`; on a mismatch the code raises `SDIODataError`
unless `data_read_aborted` is set, in which case the partial data is
returned as aborted (lines 234-240). -/
def data_bus_read (could_abort : Bool) (obs : ℕ → Bool) (dev : ℕ → ℕ)
    (crc_wire count t : ℕ) : List ℕ × DbrStatus × ℕ :=
  let r := dbr_byte_loop could_abort obs dev count 0 t []
  let data := r.1
  if r.2.1 then (data, .aborted, r.2.2)
  else
    let c := dbr_crc_poll could_abort obs 16 r.2.2
    if c.1 then (data, .aborted, c.2)
    else if crc_wire = crc16_gen data (count * 8) then (data, .okay, c.2)
    else if ! obs c.2 then (data, .dataError, c.2)
    else (data, .aborted, c.2)

/-- Block-mode read loop of `SDIOHost.cmd_io_rw_extended` (sdio_host.py
lines 406-437, native mode, no `read_wait`, `could_abort=True`): one
`data_bus_read` of `blocksize` bytes per block; then `if status ==
"aborted" or self.phy.data_read_aborted: self.phy.data_read_aborted =
False; raise ReturnValue(data)` — note it returns `data`, the bytes of
the final `data_bus_read` only, not the accumulated `blockdata`; on the
normal path the block is appended to `blockdata`, two falling edges pass
(`t + 2`), and the loop continues.  `dev bc i` is byte `i` driven during
block `bc`; `crcs bc` is the CRC received for block `bc`.  The returned
`Bool` records whether the host cleared `data_read_aborted` before
returning. -/
def cmd53_block_read_loop (obs : ℕ → Bool) (dev : ℕ → ℕ → ℕ) (crcs : ℕ → ℕ)
    (blocksize : ℕ) : ℕ → ℕ → ℕ → List (List ℕ) → Except PyErr (Cmd53Ret × Bool)
  | 0, _bc, _t, blockdata => .ok (.blocks blockdata, false)
  | k + 1, bc, t, blockdata =>
    match data_bus_read true obs (dev bc) (crcs bc) blocksize t with
    | (_, .dataError, _) => .error .sdioDataError
    | (data, .aborted, _) => .ok (.bytes data, true)
    | (data, .okay, t') =>
      if obs t' then .ok (.bytes data, true)
      else cmd53_block_read_loop obs dev crcs blocksize k (bc + 1) (t' + 2) (blockdata ++ [data])

/-- Byte-mode read path of `cmd_io_rw_extended` (`block=0`): `blocks = 1`
and `bytes_to_read = count` (sdio_host.py lines 381-384 and 411), one
`data_bus_read(count)`, then the abort check and `raise
ReturnValue(data)`. -/
def cmd53_byte_read (obs : ℕ → Bool) (dev : ℕ → ℕ) (crc_wire count t : ℕ) :
    Except PyErr (Cmd53Ret × Bool) :=
  match data_bus_read true obs dev crc_wire count t with
  | (_, .dataError, _) => .error .sdioDataError
  | (data, .aborted, _) => .ok (.bytes data, true)
  | (data, .okay, t') =>
    if obs t' then .ok (.bytes data, true) else .ok (.bytes data, false)

/-- The whole read data phase of `cmd_io_rw_extended(rw=0)`: `blocks =
count if block else 1` and `bytes_to_read = blocksize if block else
count` (sdio_host.py lines 381-384, 411). -/
def cmd_io_rw_extended_read (obs : ℕ → Bool) (dev : ℕ → ℕ → ℕ) (crcs : ℕ → ℕ)
    (block : Bool) (count blocksize t : ℕ) : Except PyErr (Cmd53Ret × Bool) :=
  if block then cmd53_block_read_loop obs dev crcs blocksize count 0 t []
  else cmd53_byte_read obs (dev 0) (crcs 0) count t

/-- C1: the claim (and the docstring of `cmd_io_rw_extended`) says that
with `block=0, count=0` the data phase transfers 512 bytes.  In fact the
code passes `count` straight to `data_bus_read` as `bytes_to_read`, whose
byte loop `for byte in range(0, 0)` is empty: the call returns normally
with an empty byte list — 0 bytes transferred, not 512.  (Here the
device and flag environment are irrelevant: no byte is ever sampled.) -/
theorem C1_cmd53_byte_mode_count0_reads_zero_bytes :
    cmd_io_rw_extended_read (fun _ => false) (fun _ _ => 0) (fun _ => 0)
      false 0 512 0 = .ok (.bytes [], false) ∧ ([] : List ℕ).length ≠ 512 := by
  exact ⟨by decide, by decide⟩

/-- Abort-observation schedule for the C4 counterexample: the flag is
first seen at poll index 19, i.e. after block 0 (polls 0-17 and the host
check at 18) has completed and the first byte of block 1 has been read. -/
def c4_obs (t : ℕ) : Bool := decide (19 ≤ t)

/-- Device bytes for the C4 counterexample: block 0 carries `[1, 2]`,
block 1 carries `[3, 4]`. -/
def c4_dev (b i : ℕ) : ℕ :=
  if b = 0 then (if i = 0 then 1 else 2) else (if i = 0 then 3 else 4)

/-- Wire CRCs for the C4 counterexample: block 0's CRC is correct. -/
def c4_crcs (b : ℕ) : ℕ := if b = 0 then crc16_gen [1, 2] 16 else 0

/-- C4 counterexample: a block-mode read of N = 2 blocks of 2 bytes,
aborted after K = 1 complete block (the flag is observed at the first
byte boundary of block 1).  The call returns normally and clears the
flag, but the returned data is `[3]` — the single byte the in-flight
`data_bus_read` had received — not the K = 1 complete blocks `[[1, 2]]`
claimed: the completed `blockdata` is discarded. -/
theorem C4_block_read_abort_counterexample :
    cmd_io_rw_extended_read c4_obs c4_dev c4_crcs true 2 2 0 =
      .ok (.bytes [3], true) ∧
    Cmd53Ret.bytes [3] ≠ Cmd53Ret.blocks [[1, 2]] := by
  exact ⟨by decide, by decide⟩

theorem dbr_byte_loop_length (could_abort : Bool) (obs : ℕ → Bool) (dev : ℕ → ℕ) :
    ∀ (k i t : ℕ) (acc : List ℕ),
      ((dbr_byte_loop could_abort obs dev k i t acc).1).length ≤ acc.length + k := by
  intro k
  induction k with
  | zero => intro i t acc; simp [dbr_byte_loop]
  | succ k ih =>
    intro i t acc
    simp only [dbr_byte_loop]
    split
    · simp
    · calc ((dbr_byte_loop could_abort obs dev k (i + 1) (t + 1) (acc ++ [dev i])).1).length
          ≤ (acc ++ [dev i]).length + k := ih (i + 1) (t + 1) (acc ++ [dev i])
        _ = acc.length + (k + 1) := by simp; omega

theorem data_bus_read_length (could_abort : Bool) (obs : ℕ → Bool) (dev : ℕ → ℕ)
    (crc_wire count t : ℕ) :
    ((data_bus_read could_abort obs dev crc_wire count t).1).length ≤ count := by
  have hb := dbr_byte_loop_length could_abort obs dev count 0 t []
  simp only [List.length_nil, Nat.zero_add] at hb
  unfold data_bus_read
  dsimp only
  split_ifs <;> simpa using hb

/-- C4 amended: when the abort flag is observed during a block-mode read
(at a `data_bus_read` polling point or at the host's per-block check),
`cmd_io_rw_extended` returns normally — no exception — with the flag
cleared, but the returned value is only what the final `data_bus_read`
had received: a flat byte list of at most one block (`length ≤
blocksize`); the K complete blocks accumulated in `blockdata` are
discarded. -/
theorem C4_block_read_abort_returns_last_read (obs : ℕ → Bool) (dev : ℕ → ℕ → ℕ)
    (crcs : ℕ → ℕ) (blocksize : ℕ) :
    ∀ (blocks bc t : ℕ) (blockdata : List (List ℕ)) (d : List ℕ) (c : Bool),
      cmd53_block_read_loop obs dev crcs blocksize blocks bc t blockdata =
        .ok (.bytes d, c) →
      d.length ≤ blocksize ∧ c = true := by
  intro blocks
  induction blocks with
  | zero =>
    intro bc t bd d c h
    simp [cmd53_block_read_loop] at h
  | succ k ih =>
    intro bc t bd d c h
    simp only [cmd53_block_read_loop] at h
    split at h
    · simp at h
    · rename_i data t' heq
      simp only [Except.ok.injEq, Prod.mk.injEq, Cmd53Ret.bytes.injEq] at h
      obtain ⟨hd, hc⟩ := h
      have hlen := data_bus_read_length true obs (dev bc) (crcs bc) blocksize t
      rw [heq] at hlen
      exact ⟨hd ▸ hlen, hc.symm⟩
    · rename_i data t' heq
      split at h
      · simp only [Except.ok.injEq, Prod.mk.injEq, Cmd53Ret.bytes.injEq] at h
        obtain ⟨hd, hc⟩ := h
        have hlen := data_bus_read_length true obs (dev bc) (crcs bc) blocksize t
        rw [heq] at hlen
        exact ⟨hd ▸ hlen, hc.symm⟩
      · exact ih _ _ _ _ _ h

/-- Witness for the C4 amended theorem at the counterexample input. -/
theorem C4_block_read_abort_returns_last_read_witness :
    ([3] : List ℕ).length ≤ 2 ∧ true = true :=
  C4_block_read_abort_returns_last_read c4_obs c4_dev c4_crcs 2 2 0 0 [] [3] true
    (by decide)
